import Mathlib

/-!
Shallow embedding of the unicodetiles.js core (Tile, Viewport, Engine) and
proofs about the frozen specification claims.

Conventions of the embedding:
* JS numbers used as integer coordinates/sizes/times are modelled as `Int`.
* Optional JS values (`undefined`) are modelled with `Option`.
* JS truthiness of a number (`if (this.w)`) is modelled as `≠ 0`; an absent
  (`undefined`) optional number is modelled as `none` and is falsy.
* Tile references: the engine compares tiles against the singleton `NULLTILE`
  with `===` (reference identity).  We therefore model a tile reference as
  either the distinguished null tile object (`TileRef.null`) or any other tile
  object carrying its value (`TileRef.obj t`).  Two distinct objects with equal
  field values stay distinguishable from the null tile, exactly as in JS.
* The viewport buffer and the two engine cache buffers are modelled as total
  functions `Int → Int → TileRef` indexed `(row, column)` like `buffer[y][x]`.
  Uninitialised cache slots are represented by leaving the cache function
  arbitrary (the constructor takes the initial contents as a parameter).
* The transition progress `(now - start) / duration` is a JS float; it is
  modelled exactly as a rational (`Rat`).  Whenever the source arms a
  transition it also sets a nonzero duration (`duration || 500`), so the
  division is never by zero in reachable states.
-/

/-- A unicode character tile: one glyph plus optional foreground (`r`,`g`,`b`)
and background (`br`,`bg`,`bb`) color channels, mirroring `class Tile`. -/
structure Tile where
  ch : String
  r : Option Nat := none
  g : Option Nat := none
  b : Option Nat := none
  br : Option Nat := none
  bg : Option Nat := none
  bb : Option Nat := none
deriving DecidableEq, Repr

def NULLCHAR : String := " "

/-- The value carried by the `NULLTILE` singleton: `new Tile(NULLCHAR)`. -/
def NULLTILE_value : Tile := { ch := NULLCHAR }

/-- A tile reference: either the distinguished `NULLTILE` object (compared by
identity in the source) or any other tile object with its value. -/
inductive TileRef where
  | null : TileRef
  | obj : Tile → TileRef
deriving DecidableEq, Repr

/-- Hexadecimal rendering of a channel value, as `Number.prototype.toString(16)`
produces for a nonnegative integer. -/
def hexString (n : Nat) : String :=
  (Nat.toDigits 16 n).asString

/-- `Tile.getColorHex`: `'#' + r.toString(16) + g.toString(16) + b.toString(16)`
when all three foreground channels are defined, else the empty string. -/
def Tile.getColorHex (t : Tile) : String :=
  match t.r, t.g, t.b with
  | some r, some g, some b => "#" ++ hexString r ++ hexString g ++ hexString b
  | _, _, _ => ""

/-- `Tile.getBackgroundHex`: as `getColorHex` but over `br`,`bg`,`bb`. -/
def Tile.getBackgroundHex (t : Tile) : String :=
  match t.br, t.bg, t.bb with
  | some r, some g, some b => "#" ++ hexString r ++ hexString g ++ hexString b
  | _, _, _ => ""

/-- `Tile.getColorRGB`: CSS string when all foreground channels are defined,
else the empty string. -/
def Tile.getColorRGB (t : Tile) : String :=
  match t.r, t.g, t.b with
  | some r, some g, some b =>
      "rgb(" ++ toString r ++ "," ++ toString g ++ "," ++ toString b ++ ")"
  | _, _, _ => ""

/-- `Tile.getBackgroundRGB`: as `getColorRGB` but over `br`,`bg`,`bb`. -/
def Tile.getBackgroundRGB (t : Tile) : String :=
  match t.br, t.bg, t.bb with
  | some r, some g, some b =>
      "rgb(" ++ toString r ++ "," ++ toString g ++ "," ++ toString b ++ ")"
  | _, _, _ => ""

/-- The structured `{r,g,b}` result of the JSON getters: `none` models the
empty object `{}`, and `some (r, g, b)` models `{r, g, b}` whose individual
fields may still be `undefined` (the source can build such an object). -/
abbrev ColorJSON := Option (Option Nat × Option Nat × Option Nat)

/-- `Tile.getColorJSON`: `{r, g, b}` when all foreground channels are defined,
else the empty object. -/
def Tile.getColorJSON (t : Tile) : ColorJSON :=
  match t.r, t.g, t.b with
  | some r, some g, some b => some (some r, some g, some b)
  | _, _, _ => none

/-- `Tile.getBackgroundJSON`, translated exactly from the source: the guard
tests the FOREGROUND channels `r`,`g`,`b` but the object is built from the
background channels `br`,`bg`,`bb`. -/
def Tile.getBackgroundJSON (t : Tile) : ColorJSON :=
  match t.r, t.g, t.b with
  | some _, some _, some _ => some (t.br, t.bg, t.bb)
  | _, _, _ => none

/-- The `Viewport`: fixed size `(w, h)`, the center `(cx, cy)` computed at
construction, and the 2D tile buffer, modelled as a total function indexed
`(row, column)` like `buffer[y][x]`. -/
@[ext] structure Viewport where
  w : Int
  h : Int
  cx : Int
  cy : Int
  buffer : Int → Int → TileRef

/-- The `Viewport` constructor: `cx = Math.floor(w/2)`, `cy = Math.floor(h/2)`
(integer floor division), every buffer cell initialised to `NULLTILE`. -/
def Viewport.init (w h : Int) : Viewport :=
  { w := w, h := h, cx := w / 2, cy := h / 2, buffer := fun _ _ => TileRef.null }

/-- `Viewport.unsafePut`: unchecked write `buffer[y][x] = tile`. -/
def Viewport.unsafePut (vp : Viewport) (tile : TileRef) (x y : Int) : Viewport :=
  { vp with buffer := fun j i => if j = y ∧ i = x then tile else vp.buffer j i }

/-- `Viewport.put`: bounds-checked write; silently does nothing when the
coordinates are out of range. -/
def Viewport.put (vp : Viewport) (tile : TileRef) (x y : Int) : Viewport :=
  if x < 0 ∨ y < 0 ∨ x ≥ vp.w ∨ y ≥ vp.h then vp
  else vp.unsafePut tile x y

/-- `Viewport.get`: bounds-checked read; returns the `NULLTILE` reference for
out-of-range coordinates. -/
def Viewport.get (vp : Viewport) (x y : Int) : TileRef :=
  if x < 0 ∨ y < 0 ∨ x ≥ vp.w ∨ y ≥ vp.h then TileRef.null
  else vp.buffer y x

/-- The loop body of `Viewport.putString`: for each character, first wrap to
column 0 of the next row if the current row is exhausted (`x >= w`), then stop
if rows are exhausted (`y >= h`), else write the freshly constructed tile with
`unsafePut` and advance the column. -/
def Viewport.putStringLoop (vp : Viewport) (cs : List Char) (x y : Int)
    (r g b br bg bb : Option Nat) : Viewport :=
  match cs with
  | [] => vp
  | c :: rest =>
      let x' := if x ≥ vp.w then 0 else x
      let y' := if x ≥ vp.w then y + 1 else y
      if y' ≥ vp.h then vp
      else
        Viewport.putStringLoop
          (vp.unsafePut (TileRef.obj
            { ch := String.singleton c, r := r, g := g, b := b,
              br := br, bg := bg, bb := bb }) x' y')
          rest (x' + 1) y' r g b br bg bb

/-- `Viewport.putString`: a negative starting coordinate is a no-op, otherwise
write one tile per character with wrapping (the string is modelled as its list
of characters). -/
def Viewport.putString (vp : Viewport) (cs : List Char) (x y : Int)
    (r g b br bg bb : Option Nat) : Viewport :=
  if x < 0 ∨ y < 0 then vp
  else vp.putStringLoop cs x y r g b br bg bb

/-- The type of a transition kernel: `(x, y, w, h, new_t, old_t, factor)`
deciding which of the two tiles to show (`factor` is the float progress,
modelled as a rational). -/
abbrev TransitionKernel :=
  Int → Int → Int → Int → TileRef → TileRef → Rat → TileRef

/-- The `boxin` kernel from `Engine.setTileFunc`. -/
def boxin : TransitionKernel := fun x y w h new_t old_t factor =>
  let halfw : Rat := (w : Rat) * 0.5
  let halfh : Rat := (h : Rat) * 0.5
  let x' := (x : Rat) - halfw
  let y' := (y : Rat) - halfh
  if |x'| < halfw * factor ∧ |y'| < halfh * factor then new_t else old_t

/-- The `boxout` kernel from `Engine.setTileFunc`. -/
def boxout : TransitionKernel := fun x y w h new_t old_t factor =>
  let halfw : Rat := (w : Rat) * 0.5
  let halfh : Rat := (h : Rat) * 0.5
  let x' := (x : Rat) - halfw
  let y' := (y : Rat) - halfh
  let factor' := 1 - factor
  if |x'| < halfw * factor' ∧ |y'| < halfh * factor' then old_t else new_t

/-- The `circlein` kernel from `Engine.setTileFunc`. -/
def circlein : TransitionKernel := fun x y w h new_t old_t factor =>
  let halfw : Rat := (w : Rat) * 0.5
  let halfh : Rat := (h : Rat) * 0.5
  let x' := (x : Rat) - halfw
  let y' := (y : Rat) - halfh
  if x' * x' + y' * y' < (halfw * halfw + halfh * halfh) * factor then new_t else old_t

/-- The `circleout` kernel from `Engine.setTileFunc`. -/
def circleout : TransitionKernel := fun x y w h new_t old_t factor =>
  let halfw : Rat := (w : Rat) * 0.5
  let halfh : Rat := (h : Rat) * 0.5
  let x' := (x : Rat) - halfw
  let y' := (y : Rat) - halfh
  let factor' := 1 - factor
  if x' * x' + y' * y' > (halfw * halfw + halfh * halfh) * factor' then new_t else old_t

/-- The `random` kernel draws `Math.random()` per invocation; the sampled
value is modelled as an explicit parameter supplied when the kernel is armed
(no claim depends on this kernel's pointwise behaviour, only on the fact that
naming it arms a transition). -/
def randomKernel (sample : Rat) : TransitionKernel := fun _ _ _ _ new_t old_t factor =>
  if sample > factor then old_t else new_t

/-- The `Engine`: the viewport, the tile-fetch callback, the optional world
size (`0` models an absent/unset axis, matching the falsiness of `undefined`
and `0`), the two cache generations with their origin, and the mask / shader /
transition configuration. -/
@[ext] structure Engine where
  viewport : Viewport
  tileFunc : Int → Int → TileRef
  w : Int
  h : Int
  refreshCache : Bool
  cacheEnabled : Bool
  transitionTimer : Option Int
  transitionDuration : Int
  transition : Option TransitionKernel
  maskFunc : Option (Int → Int → Bool)
  shaderFunc : Option (TileRef → Int → Int → Int → TileRef)
  cachex : Int
  cachey : Int
  tileCache : Int → Int → TileRef
  tileCache2 : Int → Int → TileRef

/-- The `Engine` constructor.  The two cache buffers are allocated without
initialising their entries, so their initial contents are taken as arbitrary
parameters `c` and `c2`. -/
def Engine.init (vp : Viewport) (func : Int → Int → TileRef) (w h : Int)
    (c c2 : Int → Int → TileRef) : Engine :=
  { viewport := vp, tileFunc := func, w := w, h := h,
    refreshCache := true, cacheEnabled := false,
    transitionTimer := none, transitionDuration := 0, transition := none,
    maskFunc := none, shaderFunc := none,
    cachex := 0, cachey := 0, tileCache := c, tileCache2 := c2 }

/-- `Engine.setMaskFunc`. -/
def Engine.setMaskFunc (e : Engine) (func : Int → Int → Bool) : Engine :=
  { e with maskFunc := some func }

/-- `Engine.setShaderFunc`. -/
def Engine.setShaderFunc (e : Engine)
    (func : TileRef → Int → Int → Int → TileRef) : Engine :=
  { e with shaderFunc := some func }

/-- `Engine.setWorldSize` (an absent argument is modelled as `0`, which is
falsy exactly like `undefined` in the bounds checks). -/
def Engine.setWorldSize (e : Engine) (width height : Int) : Engine :=
  { e with w := width, h := height }

/-- `Engine.setCacheEnabled`: toggles caching and always forces a cache
refresh on the next update. -/
def Engine.setCacheEnabled (e : Engine) (mode : Bool) : Engine :=
  { e with cacheEnabled := mode, refreshCache := true }

/-- `duration || 500`: the armed transition duration defaults to 500 when the
argument is absent or falsy (zero). -/
def durationValue (duration : Option Int) : Int :=
  match duration with
  | some d => if d ≠ 0 then d else 500
  | none => 500

/-- `Engine.setTileFunc`: replaces the tile function and optionally arms one
of the five built-in transition kernels.  A truthy `effect` string first
clears any pending transition; a recognised name then installs its kernel and
records the start time (`now`, the `new Date().getTime()` value) and duration.
`randSample` supplies the `Math.random()` draw used by the `random` kernel. -/
def Engine.setTileFunc (e : Engine) (func : Int → Int → TileRef)
    (effect : Option String) (duration : Option Int) (now : Int)
    (randSample : Rat) : Engine :=
  let e1 :=
    match effect with
    | some eff =>
        if eff ≠ "" then
          let e' : Engine := { e with transition := none }
          let e' : Engine :=
            if eff = "boxin" then { e' with transition := some boxin }
            else if eff = "boxout" then { e' with transition := some boxout }
            else if eff = "circlein" then { e' with transition := some circlein }
            else if eff = "circleout" then { e' with transition := some circleout }
            else if eff = "random" then { e' with transition := some (randomKernel randSample) }
            else e'
          match e'.transition with
          | some _ =>
              { e' with transitionTimer := some now,
                        transitionDuration := durationValue duration }
          | none => e'
        else e
    | none => e
  { e1 with tileFunc := func }

/-- The transition progress computed at the top of `Engine.update`:
defined only when a transition is armed and the timer is truthy. -/
def Engine.transTimeOf (e : Engine) (timeNow : Int) : Option Rat :=
  match e.transition, e.transitionTimer with
  | some _, some tt =>
      if tt ≠ 0 then some (((timeNow - tt : Int) : Rat) / (e.transitionDuration : Rat))
      else none
  | _, _ => none

/-- `if (transTime && transTime >= 1.0)`: the truthiness test plus the
threshold test that retires a finished transition. -/
def Engine.shouldRetire (e : Engine) (timeNow : Int) : Bool :=
  match e.transTimeOf timeNow with
  | some t => decide (t ≠ 0 ∧ 1 ≤ t)
  | none => false

/-- The engine after the retire step at the top of `Engine.update`. -/
def Engine.retireTransition (e : Engine) (timeNow : Int) : Engine :=
  if e.shouldRetire timeNow then { e with transition := none } else e

/-- The per-cell tile resolution of `Engine.update` for viewport cell
`(i, j)` with viewport origin offset `(xx, yy)`: the priority chain of world
bounds, mask, transition, cache, and the plain tile-function call.  Returns
the resolved tile together with a flag recording whether `tileFunc` was
invoked for this cell.  Note the second bounds check compares `jyy` against
`e.w`, exactly as the source does. -/
def Engine.resolveTile (e : Engine) (transTime : Option Rat)
    (xx yy i j : Int) : TileRef × Bool :=
  let ixx := i + xx
  let jyy := j + yy
  let cacheStage : TileRef × Bool :=
    if e.cacheEnabled ∧ e.refreshCache = false then
      let lookupx := ixx - e.cachex
      let lookupy := jyy - e.cachey
      if lookupx ≥ 0 ∧ lookupx < e.viewport.w ∧ lookupy ≥ 0 ∧ lookupy < e.viewport.h then
        let t := e.tileCache lookupy lookupx
        if t = TileRef.null then (e.tileFunc ixx jyy, true) else (t, false)
      else (e.tileFunc ixx jyy, true)
    else (e.tileFunc ixx jyy, true)
  let transStage : TileRef × Bool :=
    match e.transition with
    | some k =>
        if e.refreshCache = false then
          (k i j e.viewport.w e.viewport.h (e.tileFunc ixx jyy) (e.tileCache j i)
            (transTime.getD 0), true)
        else cacheStage
    | none => cacheStage
  if e.w ≠ 0 ∧ (ixx < 0 ∨ ixx ≥ e.w) then (TileRef.null, false)
  else if e.h ≠ 0 ∧ (jyy < 0 ∨ jyy ≥ e.w) then (TileRef.null, false)
  else if (match e.maskFunc with | some m => ! m ixx jyy | none => false) then
    (TileRef.null, false)
  else transStage

/-- The shader application step of `Engine.update`: applied only when a
shader is set and the resolved tile is not the null tile. -/
def Engine.shadeTile (e : Engine) (timeNow ixx jyy : Int) (t : TileRef) : TileRef :=
  match e.shaderFunc with
  | some f => if t ≠ TileRef.null then f t ixx jyy timeNow else t
  | none => t

/-- One full cell computation of `Engine.update` (retire step included),
exposed separately so that theorems can speak about a single cell and about
whether its resolution invoked the tile function. -/
def Engine.updateCell (e : Engine) (x y timeNow i j : Int) : TileRef × Bool :=
  let xx := x - e.viewport.cx
  let yy := y - e.viewport.cy
  (e.retireTransition timeNow).resolveTile (e.transTimeOf timeNow) xx yy i j

/-- Whether the pass `update(x, y)` at time `timeNow` invokes the tile
function while resolving viewport cell `(i, j)`. -/
def Engine.tileFuncCalled (e : Engine) (x y timeNow i j : Int) : Bool :=
  (e.updateCell x y timeNow i j).2

/-- `Engine.update`: world-coordinate offset, transition retire step, the
per-cell pass writing the viewport buffer (shaded) and the next cache
generation (unshaded), then the cache-origin record, the generation swap and
the clearing of `refreshCache`.  The loop body of the source only reads state
of the previous generation (`tileCache`) and writes distinct cells of
`tileCache2` and of the viewport buffer, so the pass is expressed cellwise. -/
def Engine.update (e : Engine) (x y timeNow : Int) : Engine :=
  let xx := x - e.viewport.cx
  let yy := y - e.viewport.cy
  let transTime := e.transTimeOf timeNow
  let e1 := e.retireTransition timeNow
  let inRange : Int → Int → Prop := fun j i =>
    0 ≤ i ∧ i < e1.viewport.w ∧ 0 ≤ j ∧ j < e1.viewport.h
  let newBuffer : Int → Int → TileRef := fun j i =>
    if inRange j i then
      e1.shadeTile timeNow (i + xx) (j + yy) (e1.resolveTile transTime xx yy i j).1
    else e1.viewport.buffer j i
  let newCache : Int → Int → TileRef := fun j i =>
    if inRange j i then (e1.resolveTile transTime xx yy i j).1
    else e1.tileCache2 j i
  { e1 with
    viewport := { e1.viewport with buffer := newBuffer },
    cachex := xx, cachey := yy,
    tileCache := newCache, tileCache2 := e1.tileCache,
    refreshCache := false }

/-! ### Concrete objects used by closed theorems and witnesses -/

/-- A concrete non-null tile. -/
def tileA : Tile := { ch := "a" }

/-- Another concrete non-null tile. -/
def tileB : Tile := { ch := "b" }

/-- A concrete 1×1 viewport (`cx = cy = 0`). -/
def vpOne : Viewport := Viewport.init 1 1

/-- An all-null cache buffer. -/
def nullCache : Int → Int → TileRef := fun _ _ => TileRef.null

/-- A tile with only the background triplet set. -/
def tileBgOnly : Tile := { ch := " ", br := some 1, bg := some 2, bb := some 3 }

/-- A tile with only the foreground triplet set. -/
def tileFgOnly : Tile := { ch := " ", r := some 1, g := some 2, b := some 3 }

/-- A freshly constructed engine over the 1×1 viewport with world size
`(5, 2)` whose tile function always returns the `tileA` object. -/
def engineWorld52 : Engine :=
  Engine.init vpOne (fun _ _ => TileRef.obj tileA) 5 2 nullCache nullCache

/-! ### Claim theorems -/

/-- Claim C1 (code bug): the source's vertical world-bounds check compares the
world `y` coordinate against the world WIDTH (`jyy >= this.w`) instead of the
height.  With world size `(W,H) = (5,2)`, a 1×1 viewport centered at `(0,0)`,
and `update(1,3)`, cell `(0,0)` maps to `(wx,wy) = (1,3)` with `wy = 3`
outside `[0,2)`, yet the engine stores the tile-function result instead of the
null tile.  The conjuncts exhibit the configuration and the divergence. -/
theorem world_bounds_vertical_check_uses_width :
    (engineWorld52.update 1 3 0).viewport.buffer 0 0 = TileRef.obj tileA
    ∧ engineWorld52.w = 5 ∧ engineWorld52.h = 2
    ∧ ¬ (0 ≤ (3 : Int) ∧ (3 : Int) < engineWorld52.h)
    ∧ TileRef.obj tileA ≠ TileRef.null := by
  refine ⟨by decide, by decide, by decide, by decide, by decide⟩

/-- Claim C4 (code bug): `Tile.getBackgroundJSON` guards on the FOREGROUND
channels.  A tile whose background triplet is fully set but whose foreground
is unset yields the empty object, and a tile with foreground set but
background unset yields an object whose three channels are all undefined —
both contradict the claim (and the getter's own documentation).  The other
five getters behave as claimed; the failing pair is exhibited here. -/
theorem background_json_checks_foreground :
    tileBgOnly.getBackgroundJSON = none
    ∧ tileBgOnly.br = some 1 ∧ tileBgOnly.bg = some 2 ∧ tileBgOnly.bb = some 3
    ∧ tileFgOnly.getBackgroundJSON = some (none, none, none)
    ∧ tileFgOnly.br = none ∧ tileFgOnly.bg = none ∧ tileFgOnly.bb = none := by
  refine ⟨by decide, by decide, by decide, by decide, by decide, by decide, by decide, by decide⟩

/-- Claim C6: the four deterministic built-in transition kernels select
exactly by the stated recentred box / circle tests — `boxin` shows the new
tile inside the growing box, `boxout` the old tile inside the shrinking box,
`circlein` the new tile inside the growing disc, `circleout` the new tile
outside the shrinking disc — and each one always returns one of its two input
tiles, never an interpolated value. -/
theorem transition_kernels_select_exactly
    (x y w h : Int) (new_t old_t : TileRef) (factor : Rat) :
    (boxin x y w h new_t old_t factor =
      if |(x : Rat) - (w : Rat) / 2| < (w : Rat) / 2 * factor ∧
         |(y : Rat) - (h : Rat) / 2| < (h : Rat) / 2 * factor
      then new_t else old_t)
    ∧ (boxout x y w h new_t old_t factor =
      if |(x : Rat) - (w : Rat) / 2| < (w : Rat) / 2 * (1 - factor) ∧
         |(y : Rat) - (h : Rat) / 2| < (h : Rat) / 2 * (1 - factor)
      then old_t else new_t)
    ∧ (circlein x y w h new_t old_t factor =
      if ((x : Rat) - (w : Rat) / 2) ^ 2 + ((y : Rat) - (h : Rat) / 2) ^ 2 <
         (((w : Rat) / 2) ^ 2 + ((h : Rat) / 2) ^ 2) * factor
      then new_t else old_t)
    ∧ (circleout x y w h new_t old_t factor =
      if ((x : Rat) - (w : Rat) / 2) ^ 2 + ((y : Rat) - (h : Rat) / 2) ^ 2 >
         (((w : Rat) / 2) ^ 2 + ((h : Rat) / 2) ^ 2) * (1 - factor)
      then new_t else old_t)
    ∧ (boxin x y w h new_t old_t factor = new_t ∨ boxin x y w h new_t old_t factor = old_t)
    ∧ (boxout x y w h new_t old_t factor = new_t ∨ boxout x y w h new_t old_t factor = old_t)
    ∧ (circlein x y w h new_t old_t factor = new_t ∨ circlein x y w h new_t old_t factor = old_t)
    ∧ (circleout x y w h new_t old_t factor = new_t ∨ circleout x y w h new_t old_t factor = old_t) := by
  have hw : ((w : Rat)) * 0.5 = (w : Rat) / 2 := by norm_num [mul_one_div]
  have hh : ((h : Rat)) * 0.5 = (h : Rat) / 2 := by norm_num [mul_one_div]
  refine ⟨?_, ?_, ?_, ?_, ?_, ?_, ?_, ?_⟩
  · simp only [boxin]; rw [hw, hh]
  · simp only [boxout]; rw [hw, hh]
  · simp only [circlein]; rw [hw, hh, pow_two, pow_two, pow_two, pow_two]
  · simp only [circleout]; rw [hw, hh, pow_two, pow_two, pow_two, pow_two]
  · simp only [boxin]; exact ite_eq_or_eq _ _ _
  · simp only [boxout]; exact (ite_eq_or_eq _ _ _).symm
  · simp only [circlein]; exact ite_eq_or_eq _ _ _
  · simp only [circleout]; exact ite_eq_or_eq _ _ _

/-- Claim C8: for any coordinates outside `[0,w)×[0,h)`, `Viewport.get`
returns the `NULLTILE` reference and `Viewport.put` leaves the viewport (in
particular every buffer cell) unchanged without failing; for in-range
coordinates `put` writes the tile and `get` returns exactly the stored
reference. -/
theorem viewport_bounds_totality (vp : Viewport) (t : TileRef) (x y : Int) :
    ((x < 0 ∨ y < 0 ∨ x ≥ vp.w ∨ y ≥ vp.h) →
       vp.get x y = TileRef.null ∧ vp.put t x y = vp)
    ∧ (0 ≤ x → x < vp.w → 0 ≤ y → y < vp.h →
       (vp.put t x y).buffer y x = t ∧ (vp.put t x y).get x y = t) := by
  constructor
  · intro hout
    exact ⟨by simp [Viewport.get, hout], by simp [Viewport.put, hout]⟩
  · intro hx0 hx hy0 hy
    have hcond : ¬ (x < 0 ∨ y < 0 ∨ x ≥ vp.w ∨ y ≥ vp.h) := by omega
    constructor
    · simp [Viewport.put, Viewport.unsafePut, hcond]
    · simp [Viewport.put, Viewport.unsafePut, Viewport.get, hcond]

/-- Witness for `viewport_bounds_totality` at a concrete viewport and both an
out-of-range and an in-range coordinate. -/
theorem viewport_bounds_totality_witness :
    ((3 : Int) < 0 ∨ (0 : Int) < 0 ∨ (3 : Int) ≥ vpOne.w ∨ (0 : Int) ≥ vpOne.h)
    ∧ vpOne.get 3 0 = TileRef.null ∧ vpOne.put (TileRef.obj tileA) 3 0 = vpOne
    ∧ (0 : Int) ≤ 0 ∧ (0 : Int) < vpOne.w
    ∧ (vpOne.put (TileRef.obj tileA) 0 0).buffer 0 0 = TileRef.obj tileA := by
  have hout := (viewport_bounds_totality vpOne (TileRef.obj tileA) 3 0).1
    (by right; right; left; decide)
  have hin := (viewport_bounds_totality vpOne (TileRef.obj tileA) 0 0).2
    (by decide) (by decide) (by decide) (by decide)
  exact ⟨by right; right; left; decide, hout.1, hout.2, by decide, by decide, hin.1⟩

/-- A concrete engine with no mask, shader, cache, transition, or world size
over the 1×1 viewport. -/
def enginePlain : Engine :=
  Engine.init vpOne (fun _ _ => TileRef.obj tileA) 0 0 nullCache nullCache

/-- Claim C2: with no mask, no shader, caching disabled, no transition armed
and world size unset, one `update(x, y)` makes viewport buffer cell `(i, j)`
equal `tileFunc(i + x - cx, j + y - cy)` exactly, for every in-range cell. -/
theorem update_no_mask_passthrough (e : Engine) (x y timeNow i j : Int)
    (hm : e.maskFunc = none) (hs : e.shaderFunc = none) (hc : e.cacheEnabled = false)
    (ht : e.transition = none) (hw : e.w = 0) (hh : e.h = 0)
    (hi0 : 0 ≤ i) (hi : i < e.viewport.w) (hj0 : 0 ≤ j) (hj : j < e.viewport.h) :
    (e.update x y timeNow).viewport.buffer j i =
      e.tileFunc (i + (x - e.viewport.cx)) (j + (y - e.viewport.cy)) := by
  have hretire : e.retireTransition timeNow = e := by
    simp [Engine.retireTransition, Engine.shouldRetire, Engine.transTimeOf, ht]
  simp [Engine.update, hretire, Engine.resolveTile, Engine.shadeTile,
        hm, hs, hc, ht, hw, hh, hi0, hi, hj0, hj]

/-- Witness for `update_no_mask_passthrough` on a concrete engine. -/
theorem update_no_mask_passthrough_witness :
    enginePlain.maskFunc = none ∧ enginePlain.shaderFunc = none
    ∧ enginePlain.cacheEnabled = false ∧ enginePlain.transition = none
    ∧ enginePlain.w = 0 ∧ enginePlain.h = 0
    ∧ (0 : Int) ≤ 0 ∧ (0 : Int) < enginePlain.viewport.w
    ∧ (enginePlain.update 7 9 0).viewport.buffer 0 0 =
        enginePlain.tileFunc (0 + (7 - enginePlain.viewport.cx))
          (0 + (9 - enginePlain.viewport.cy)) :=
  ⟨rfl, rfl, rfl, rfl, rfl, rfl, by decide, by decide,
    update_no_mask_passthrough enginePlain 7 9 0 0 0 rfl rfl rfl rfl rfl rfl
      (by decide) (by decide) (by decide) (by decide)⟩

/-- The cell resolution restricted to the branches that never touch the cache
buffers: world bounds, mask, and the plain tile-function call (the vertical
bound compares against `e.w`, as the source does). -/
def Engine.freshResolve (e : Engine) (xx yy i j : Int) : TileRef :=
  let ixx := i + xx
  let jyy := j + yy
  if e.w ≠ 0 ∧ (ixx < 0 ∨ ixx ≥ e.w) then TileRef.null
  else if e.h ≠ 0 ∧ (jyy < 0 ∨ jyy ≥ e.w) then TileRef.null
  else if (match e.maskFunc with | some m => ! m ixx jyy | none => false) then TileRef.null
  else e.tileFunc ixx jyy

/-- On a force-refresh pass the cell resolution reduces to the cache-free
chain: the transition and cache-lookup branches both require
`refreshCache = false`. -/
theorem resolve_of_refresh (e : Engine) (transTime : Option Rat) (xx yy i j : Int)
    (hr : e.refreshCache = true) :
    (e.resolveTile transTime xx yy i j).1 = e.freshResolve xx yy i j := by
  simp only [Engine.resolveTile, Engine.freshResolve, hr]
  cases e.transition <;> simp <;> split_ifs <;> rfl

/-- On a force-refresh pass every in-range viewport buffer cell equals the
shaded cache-free resolution. -/
theorem refresh_buffer_eq (e : Engine) (x y timeNow i j : Int)
    (hr : e.refreshCache = true)
    (hi0 : 0 ≤ i) (hi : i < e.viewport.w) (hj0 : 0 ≤ j) (hj : j < e.viewport.h) :
    (e.update x y timeNow).viewport.buffer j i
      = e.shadeTile timeNow (i + (x - e.viewport.cx)) (j + (y - e.viewport.cy))
          (e.freshResolve (x - e.viewport.cx) (y - e.viewport.cy) i j) := by
  have hvp : (e.retireTransition timeNow).viewport = e.viewport := by
    unfold Engine.retireTransition; split_ifs <;> rfl
  have hrf : (e.retireTransition timeNow).refreshCache = true := by
    unfold Engine.retireTransition; split_ifs <;> exact hr
  have hfr : ∀ xx yy, (e.retireTransition timeNow).freshResolve xx yy i j
      = e.freshResolve xx yy i j := by
    intro xx yy; unfold Engine.retireTransition; split_ifs <;> rfl
  have hsh : ∀ a b t, (e.retireTransition timeNow).shadeTile timeNow a b t
      = e.shadeTile timeNow a b t := by
    intro a b t; unfold Engine.retireTransition; split_ifs <;> rfl
  simp only [Engine.update, hvp]
  rw [if_pos (show (0:Int) ≤ i ∧ i < e.viewport.w ∧ 0 ≤ j ∧ j < e.viewport.h
        from ⟨hi0, hi, hj0, hj⟩)]
  rw [resolve_of_refresh _ _ _ _ _ _ hrf, hfr, hsh]

/-- The cache-free resolution is the null tile or a fresh tile-function
result. -/
theorem fresh_form (e : Engine) (xx yy i j : Int) :
    e.freshResolve xx yy i j = TileRef.null
    ∨ e.freshResolve xx yy i j = e.tileFunc (i + xx) (j + yy) := by
  simp only [Engine.freshResolve]
  split_ifs
  · exact Or.inl rfl
  · exact Or.inl rfl
  · exact Or.inl rfl
  · exact Or.inr rfl

/-- The shaded cache-free resolution is the null tile, a fresh tile-function
result, or the shader applied to a fresh tile-function result. -/
theorem shade_fresh_form (e : Engine) (timeNow xx yy i j : Int) :
    e.shadeTile timeNow (i + xx) (j + yy) (e.freshResolve xx yy i j) = TileRef.null
    ∨ e.shadeTile timeNow (i + xx) (j + yy) (e.freshResolve xx yy i j)
        = e.tileFunc (i + xx) (j + yy)
    ∨ ∃ f, e.shaderFunc = some f ∧
        e.shadeTile timeNow (i + xx) (j + yy) (e.freshResolve xx yy i j)
          = f (e.tileFunc (i + xx) (j + yy)) (i + xx) (j + yy) timeNow := by
  rcases fresh_form e xx yy i j with ht | ht <;> rw [ht]
  · left
    rcases hsf : e.shaderFunc with _ | f <;> simp [Engine.shadeTile, hsf]
  · rcases hsf : e.shaderFunc with _ | f
    · right; left; simp [Engine.shadeTile, hsf]
    · by_cases hnull : e.tileFunc (i + xx) (j + yy) = TileRef.null
      · right; left; simp [Engine.shadeTile, hsf, hnull]
      · right; right
        exact ⟨f, rfl, by simp [Engine.shadeTile, hsf, hnull]⟩

/-- Claim C10: when `refreshCache` is true at the start of `update` — as it
is after construction and after every `setCacheEnabled` call — neither the
transition branch nor the cache-lookup branch is taken: the pass's output is
the same for arbitrary cache contents `c`, `c2` (so no uninitialised slot is
ever read), and every tile written to the viewport is the null tile, a fresh
tile-function result, or the shader applied to a fresh result. -/
theorem refresh_pass_reads_no_cache (e : Engine) (x y timeNow i j : Int)
    (c c2 : Int → Int → TileRef)
    (hr : e.refreshCache = true)
    (hi0 : 0 ≤ i) (hi : i < e.viewport.w) (hj0 : 0 ≤ j) (hj : j < e.viewport.h) :
    (∀ vp func w h cc cc2, (Engine.init vp func w h cc cc2).refreshCache = true)
    ∧ (∀ e' m, (Engine.setCacheEnabled e' m).refreshCache = true)
    ∧ (({ e with tileCache := c, tileCache2 := c2 } : Engine).update x y timeNow).viewport.buffer j i
        = e.shadeTile timeNow (i + (x - e.viewport.cx)) (j + (y - e.viewport.cy))
            (e.freshResolve (x - e.viewport.cx) (y - e.viewport.cy) i j)
    ∧ ((({ e with tileCache := c, tileCache2 := c2 } : Engine).update x y timeNow).viewport.buffer j i
         = TileRef.null
       ∨ (({ e with tileCache := c, tileCache2 := c2 } : Engine).update x y timeNow).viewport.buffer j i
         = e.tileFunc (i + (x - e.viewport.cx)) (j + (y - e.viewport.cy))
       ∨ ∃ f, e.shaderFunc = some f ∧
           (({ e with tileCache := c, tileCache2 := c2 } : Engine).update x y timeNow).viewport.buffer j i
             = f (e.tileFunc (i + (x - e.viewport.cx)) (j + (y - e.viewport.cy)))
                 (i + (x - e.viewport.cx)) (j + (y - e.viewport.cy)) timeNow) := by
  have hbuf : (({ e with tileCache := c, tileCache2 := c2 } : Engine).update x y timeNow).viewport.buffer j i
      = e.shadeTile timeNow (i + (x - e.viewport.cx)) (j + (y - e.viewport.cy))
          (e.freshResolve (x - e.viewport.cx) (y - e.viewport.cy) i j) :=
    refresh_buffer_eq ({ e with tileCache := c, tileCache2 := c2 } : Engine)
      x y timeNow i j hr hi0 hi hj0 hj
  refine ⟨fun _ _ _ _ _ _ => rfl, fun _ _ => rfl, hbuf, ?_⟩
  rw [hbuf]
  exact shade_fresh_form e timeNow (x - e.viewport.cx) (y - e.viewport.cy) i j

/-- Witness for `refresh_pass_reads_no_cache` on a freshly constructed
engine. -/
theorem refresh_pass_reads_no_cache_witness :
    engineWorld52.refreshCache = true
    ∧ (0 : Int) ≤ 0 ∧ (0 : Int) < engineWorld52.viewport.w
    ∧ (∀ vp func w h cc cc2, (Engine.init vp func w h cc cc2).refreshCache = true)
    ∧ (({ engineWorld52 with tileCache := nullCache, tileCache2 := nullCache } : Engine).update 0 0 0).viewport.buffer 0 0
        = engineWorld52.shadeTile 0 (0 + (0 - engineWorld52.viewport.cx))
            (0 + (0 - engineWorld52.viewport.cy))
            (engineWorld52.freshResolve (0 - engineWorld52.viewport.cx)
              (0 - engineWorld52.viewport.cy) 0 0) := by
  have h := refresh_pass_reads_no_cache engineWorld52 0 0 0 0 0 nullCache nullCache
    rfl (by decide) (by decide) (by decide) (by decide)
  exact ⟨rfl, by decide, by decide, h.1, h.2.2.1⟩

/-- The engine as if no transition had ever been armed: no kernel, no start
timestamp, no duration. -/
def Engine.neverArmed (e : Engine) : Engine :=
  { e with transition := none, transitionTimer := none, transitionDuration := 0 }

/-- Claim C5: calling `update` at progress `(timeNow - start)/duration ≥ 1`
retires the transition before the cell pass runs; the resulting engine state
(viewport buffer included) is exactly the state an engine that never had the
transition armed would reach — only the stale timer and duration bookkeeping
fields differ — and the transition is gone, so subsequent updates also run
untransitioned. -/
theorem update_transition_boundary (e : Engine) (k : TransitionKernel)
    (tt x y timeNow : Int)
    (htr : e.transition = some k) (htt : e.transitionTimer = some tt) (htt0 : tt ≠ 0)
    (hge : 1 ≤ ((timeNow - tt : Int) : Rat) / (e.transitionDuration : Rat)) :
    e.update x y timeNow
      = { e.neverArmed.update x y timeNow with
          transitionTimer := e.transitionTimer,
          transitionDuration := e.transitionDuration }
    ∧ (e.update x y timeNow).transition = none := by
  have hq0 : ((timeNow - tt : Int) : Rat) / (e.transitionDuration : Rat) ≠ 0 := by
    intro h0; rw [h0] at hge; norm_num at hge
  have htle : e.transTimeOf timeNow
      = some (((timeNow - tt : Int) : Rat) / (e.transitionDuration : Rat)) := by
    simp [Engine.transTimeOf, htr, htt, htt0]
  have hsr : e.shouldRetire timeNow = true := by
    unfold Engine.shouldRetire
    rw [htle]
    simp only [decide_eq_true_eq]
    exact ⟨hq0, hge⟩
  have he1 : e.retireTransition timeNow = { e with transition := none } := by
    simp [Engine.retireTransition, hsr]
  have he' : e.neverArmed.retireTransition timeNow = e.neverArmed := by
    simp [Engine.retireTransition, Engine.shouldRetire, Engine.transTimeOf, Engine.neverArmed]
  constructor
  · simp only [Engine.update, he1, he', Engine.neverArmed]
    ext <;> try rfl
  · simp only [Engine.update, he1]

/-- A concrete engine with a `boxin` transition in flight: armed at time 1
with duration 100; its tile function returns `tileA` and the previous
generation's cache holds `tileA` everywhere. -/
def engineArmed : Engine :=
  { viewport := vpOne,
    tileFunc := fun _ _ => TileRef.obj tileA,
    w := 0, h := 0,
    refreshCache := false, cacheEnabled := false,
    transitionTimer := some 1, transitionDuration := 100,
    transition := some boxin,
    maskFunc := none, shaderFunc := none,
    cachex := 0, cachey := 0,
    tileCache := fun _ _ => TileRef.obj tileA,
    tileCache2 := nullCache }

/-- Witness for `update_transition_boundary`: the armed engine updated at
time 101, where progress is exactly 1. -/
theorem update_transition_boundary_witness :
    engineArmed.transitionTimer = some 1 ∧ (1 : Int) ≠ 0
    ∧ 1 ≤ ((101 - 1 : Int) : Rat) / (engineArmed.transitionDuration : Rat)
    ∧ engineArmed.update 0 0 101
        = { engineArmed.neverArmed.update 0 0 101 with
            transitionTimer := engineArmed.transitionTimer,
            transitionDuration := engineArmed.transitionDuration }
    ∧ (engineArmed.update 0 0 101).transition = none := by
  have h := update_transition_boundary engineArmed boxin 1 0 0 101 rfl rfl
    (by decide) (by norm_num [engineArmed])
  exact ⟨rfl, by decide, by norm_num [engineArmed], h.1, h.2⟩

/-- Claim C7 (corrected): an unrecognized non-empty effect name arms no
transition, raises no error and still replaces the tile function — but it
additionally CLEARS any pending transition (`this.transition = undefined`
runs before the name is matched), which a call without an effect argument
does not do.  The two calls agree exactly when no transition was armed. -/
theorem setTileFunc_unknown_effect (e : Engine) (func : Int → Int → TileRef)
    (eff : String) (duration : Option Int) (now : Int) (rs : Rat)
    (hne : eff ≠ "")
    (h1 : eff ≠ "boxin") (h2 : eff ≠ "boxout") (h3 : eff ≠ "circlein")
    (h4 : eff ≠ "circleout") (h5 : eff ≠ "random") :
    e.setTileFunc func (some eff) duration now rs
      = { e with transition := none, tileFunc := func }
    ∧ (e.transition = none →
        e.setTileFunc func (some eff) duration now rs
          = e.setTileFunc func none duration now rs) := by
  constructor
  · simp [Engine.setTileFunc, hne, h1, h2, h3, h4, h5]
  · intro ht
    simp [Engine.setTileFunc, hne, h1, h2, h3, h4, h5]
    cases e
    simp_all

/-- Counterexample for claim C7 as stated: on an engine with a transition in
flight, `setTileFunc(func, 'bogus')` cancels the transition while
`setTileFunc(func)` keeps it, and the very next `update` call observably
differs — the no-effect path still blends with the old cached tile (`tileA`)
while the bogus-effect path shows the new tile function's tile (`tileB`). -/
theorem setTileFunc_unknown_effect_cex :
    ((engineArmed.setTileFunc (fun _ _ => TileRef.obj tileB) (some "bogus") none 0 0).update 0 0 51).viewport.buffer 0 0
      = TileRef.obj tileB
    ∧ ((engineArmed.setTileFunc (fun _ _ => TileRef.obj tileB) none none 0 0).update 0 0 51).viewport.buffer 0 0
      = TileRef.obj tileA
    ∧ TileRef.obj tileB ≠ TileRef.obj tileA
    ∧ engineArmed.transition.isSome = true := by
  refine ⟨by decide, ?_, by decide, rfl⟩
  norm_num [engineArmed, Engine.setTileFunc, Engine.update, Engine.retireTransition,
    Engine.shouldRetire, Engine.transTimeOf, Engine.resolveTile, Engine.shadeTile,
    boxin, abs_lt, vpOne, Viewport.init]

/-- Witness for `setTileFunc_unknown_effect` at a concrete engine without a
pending transition and the unrecognized name `bogus`. -/
theorem setTileFunc_unknown_effect_witness :
    ("bogus" : String) ≠ "" ∧ ("bogus" : String) ≠ "boxin"
    ∧ ("bogus" : String) ≠ "random"
    ∧ enginePlain.setTileFunc (fun _ _ => TileRef.obj tileB) (some "bogus") none 0 0
        = { enginePlain with transition := none, tileFunc := fun _ _ => TileRef.obj tileB }
    ∧ (enginePlain.transition = none →
        enginePlain.setTileFunc (fun _ _ => TileRef.obj tileB) (some "bogus") none 0 0
          = enginePlain.setTileFunc (fun _ _ => TileRef.obj tileB) none none 0 0) := by
  have h := setTileFunc_unknown_effect enginePlain (fun _ _ => TileRef.obj tileB)
    "bogus" none 0 0 (by decide) (by decide) (by decide) (by decide) (by decide) (by decide)
  exact ⟨by decide, by decide, by decide, h.1, h.2⟩

/-- A concrete caching engine over the 1×1 viewport with world size unset. -/
def engineCached : Engine :=
  { viewport := vpOne,
    tileFunc := fun _ _ => TileRef.obj tileA,
    w := 0, h := 0,
    refreshCache := true, cacheEnabled := true,
    transitionTimer := none, transitionDuration := 0,
    transition := none,
    maskFunc := none, shaderFunc := none,
    cachex := 0, cachey := 0,
    tileCache := nullCache, tileCache2 := nullCache }

/-- The caching engine with a finite 1×1 world. -/
def engineCacheBounded : Engine := { engineCached with w := 1, h := 1 }

/-- Claim C3 (amended with "world size unset"): with caching enabled, no mask,
no transition and world size unset, after `update(c1)` followed by
`update(c1+(dx,dy))`, a viewport cell whose lookup index into the previous
cache footprint is in range is served from the previous-generation cache
without invoking the tile function — unless the cached slot held the null
tile, in which case the tile function is called fresh — and a cell outside
the footprint calls the tile function fresh; the viewport receives the
(possibly shaded) resolved tile. -/
theorem cache_translation_reuse (e0 : Engine) (c1x c1y t1 dx dy t2 i j : Int)
    (hc : e0.cacheEnabled = true) (hm : e0.maskFunc = none) (ht : e0.transition = none)
    (hw : e0.w = 0) (hh : e0.h = 0)
    (hi0 : 0 ≤ i) (hi : i < e0.viewport.w) (hj0 : 0 ≤ j) (hj : j < e0.viewport.h) :
    (((i + ((c1x + dx) - e0.viewport.cx)) - (e0.update c1x c1y t1).cachex ≥ 0
      ∧ (i + ((c1x + dx) - e0.viewport.cx)) - (e0.update c1x c1y t1).cachex < e0.viewport.w
      ∧ (j + ((c1y + dy) - e0.viewport.cy)) - (e0.update c1x c1y t1).cachey ≥ 0
      ∧ (j + ((c1y + dy) - e0.viewport.cy)) - (e0.update c1x c1y t1).cachey < e0.viewport.h) →
      ((e0.update c1x c1y t1).tileCache
          ((j + ((c1y + dy) - e0.viewport.cy)) - (e0.update c1x c1y t1).cachey)
          ((i + ((c1x + dx) - e0.viewport.cx)) - (e0.update c1x c1y t1).cachex) ≠ TileRef.null →
        (e0.update c1x c1y t1).updateCell (c1x + dx) (c1y + dy) t2 i j
          = ((e0.update c1x c1y t1).tileCache
              ((j + ((c1y + dy) - e0.viewport.cy)) - (e0.update c1x c1y t1).cachey)
              ((i + ((c1x + dx) - e0.viewport.cx)) - (e0.update c1x c1y t1).cachex), false))
      ∧ ((e0.update c1x c1y t1).tileCache
          ((j + ((c1y + dy) - e0.viewport.cy)) - (e0.update c1x c1y t1).cachey)
          ((i + ((c1x + dx) - e0.viewport.cx)) - (e0.update c1x c1y t1).cachex) = TileRef.null →
        (e0.update c1x c1y t1).updateCell (c1x + dx) (c1y + dy) t2 i j
          = (e0.tileFunc (i + ((c1x + dx) - e0.viewport.cx)) (j + ((c1y + dy) - e0.viewport.cy)), true)))
    ∧ (¬ ((i + ((c1x + dx) - e0.viewport.cx)) - (e0.update c1x c1y t1).cachex ≥ 0
      ∧ (i + ((c1x + dx) - e0.viewport.cx)) - (e0.update c1x c1y t1).cachex < e0.viewport.w
      ∧ (j + ((c1y + dy) - e0.viewport.cy)) - (e0.update c1x c1y t1).cachey ≥ 0
      ∧ (j + ((c1y + dy) - e0.viewport.cy)) - (e0.update c1x c1y t1).cachey < e0.viewport.h) →
        (e0.update c1x c1y t1).updateCell (c1x + dx) (c1y + dy) t2 i j
          = (e0.tileFunc (i + ((c1x + dx) - e0.viewport.cx)) (j + ((c1y + dy) - e0.viewport.cy)), true))
    ∧ (((e0.update c1x c1y t1).update (c1x + dx) (c1y + dy) t2).viewport.buffer j i
        = (e0.update c1x c1y t1).shadeTile t2 (i + ((c1x + dx) - e0.viewport.cx))
            (j + ((c1y + dy) - e0.viewport.cy))
            ((e0.update c1x c1y t1).updateCell (c1x + dx) (c1y + dy) t2 i j).1) := by
  have hret : e0.retireTransition t1 = e0 := by
    simp [Engine.retireTransition, Engine.shouldRetire, Engine.transTimeOf, ht]
  have ftrans : (e0.update c1x c1y t1).transition = none := by
    simp only [Engine.update]; rw [hret]; exact ht
  have fmask : (e0.update c1x c1y t1).maskFunc = none := by
    simp only [Engine.update]; rw [hret]; exact hm
  have fcache : (e0.update c1x c1y t1).cacheEnabled = true := by
    simp only [Engine.update]; rw [hret]; exact hc
  have fw : (e0.update c1x c1y t1).w = 0 := by
    simp only [Engine.update]; rw [hret]; exact hw
  have fh : (e0.update c1x c1y t1).h = 0 := by
    simp only [Engine.update]; rw [hret]; exact hh
  have frefresh : (e0.update c1x c1y t1).refreshCache = false := by
    simp only [Engine.update]
  have fvw : (e0.update c1x c1y t1).viewport.w = e0.viewport.w := by
    simp only [Engine.update]; rw [hret]
  have fvh : (e0.update c1x c1y t1).viewport.h = e0.viewport.h := by
    simp only [Engine.update]; rw [hret]
  have fvcx : (e0.update c1x c1y t1).viewport.cx = e0.viewport.cx := by
    simp only [Engine.update]; rw [hret]
  have fvcy : (e0.update c1x c1y t1).viewport.cy = e0.viewport.cy := by
    simp only [Engine.update]; rw [hret]
  have ffunc : (e0.update c1x c1y t1).tileFunc = e0.tileFunc := by
    simp only [Engine.update]; rw [hret]
  have ftt : (e0.update c1x c1y t1).transTimeOf t2 = none := by
    simp [Engine.transTimeOf, ftrans]
  have fret2 : (e0.update c1x c1y t1).retireTransition t2 = e0.update c1x c1y t1 := by
    simp [Engine.retireTransition, Engine.shouldRetire, ftt]
  have hcell : (e0.update c1x c1y t1).updateCell (c1x + dx) (c1y + dy) t2 i j
      = (e0.update c1x c1y t1).resolveTile none
          ((c1x + dx) - e0.viewport.cx) ((c1y + dy) - e0.viewport.cy) i j := by
    rw [Engine.updateCell, fret2, ftt, fvcx, fvcy]
  generalize hE : e0.update c1x c1y t1 = E at ftrans fmask fcache fw fh frefresh fvw fvh fvcx fvcy ffunc ftt fret2 hcell ⊢
  refine ⟨?_, ?_, ?_⟩
  · intro hfoot
    rw [hcell, Engine.resolveTile]
    simp only [fw, fh, fmask, ftrans, fcache, frefresh, fvw, fvh, ffunc]
    constructor
    · intro hnn
      simp [hfoot.1, hfoot.2.1, hfoot.2.2.1, hfoot.2.2.2, hnn]
    · intro hnull
      simp [hfoot.1, hfoot.2.1, hfoot.2.2.1, hfoot.2.2.2, hnull]
  · intro hnot
    rw [hcell, Engine.resolveTile]
    simp only [fw, fh, fmask, ftrans, fcache, frefresh, fvw, fvh, ffunc]
    simp [hnot]
    intro h1 h2 h3 h4
    exact absurd ⟨by omega, h2, by omega, h4⟩ hnot
  · simp only [Engine.update, fret2, ftt, fvcx, fvcy, fvw, fvh]
    rw [if_pos (show (0:Int) ≤ i ∧ i < e0.viewport.w ∧ 0 ≤ j ∧ j < e0.viewport.h
          from ⟨hi0, hi, hj0, hj⟩)]
    rw [hcell]

/-- Counterexample for claim C3 as stated (no world-size restriction): with a
finite 1×1 world, after `update(0,0)` the second `update(1,0)` maps cell
`(0,0)` to world `(1,0)`, which lies outside the previous cache footprint, so
the claim demands a fresh tile-function call — but the world-bounds check
short-circuits to the null tile and the tile function is never invoked. -/
theorem cache_translation_reuse_cex :
    engineCacheBounded.cacheEnabled = true
    ∧ engineCacheBounded.maskFunc = none
    ∧ engineCacheBounded.transition = none
    ∧ (engineCacheBounded.update 0 0 10).tileFuncCalled 1 0 20 0 0 = false
    ∧ ¬ ((0 + (1 - engineCacheBounded.viewport.cx))
          - (engineCacheBounded.update 0 0 10).cachex < engineCacheBounded.viewport.w) :=
  ⟨rfl, rfl, rfl, by decide, by decide⟩

/-- Witness for `cache_translation_reuse`: a second update at the unchanged
center is served entirely from the cache filled by the first update. -/
theorem cache_translation_reuse_witness :
    engineCached.cacheEnabled = true ∧ engineCached.maskFunc = none
    ∧ engineCached.transition = none ∧ engineCached.w = 0 ∧ engineCached.h = 0
    ∧ (engineCached.update 0 0 5).updateCell 0 0 6 0 0
        = ((engineCached.update 0 0 5).tileCache
            ((0 + ((0 + 0) - engineCached.viewport.cy)) - (engineCached.update 0 0 5).cachey)
            ((0 + ((0 + 0) - engineCached.viewport.cx)) - (engineCached.update 0 0 5).cachex),
           false) := by
  have h := cache_translation_reuse engineCached 0 0 5 0 0 6 0 0 rfl rfl rfl rfl rfl
    (by decide) (by decide) (by decide) (by decide)
  exact ⟨rfl, rfl, rfl, rfl, rfl, (h.1 (by decide)).1 (by decide)⟩

/-- Closed form of the cell a character lands in: character `n` of a
`putString` starting at `(x, y)` on a width-`w` viewport goes to column
`x + n` of row `y` while that fits, and otherwise wraps into subsequent
rows of width `w` starting at column 0 of row `y + 1`. -/
def posOf (w x y : Int) (n : Nat) : Int × Int :=
  let t := x + n
  if t < w then (t, y) else ((t - w) % w, y + 1 + (t - w) / w)

/-- Consuming one character without wrapping shifts the start column. -/
theorem posOf_succ (w x y : Int) (n : Nat) :
    posOf w x y (n + 1) = posOf w (x + 1) y n := by
  unfold posOf
  push_cast
  rw [show x + ((n : Int) + 1) = x + 1 + (n : Int) by ring]

/-- At the wrap point the current character lands at column 0 of the next
row. -/
theorem posOf_wrap_zero (w y : Int) :
    posOf w w y 0 = (0, y + 1) := by
  unfold posOf
  rw [if_neg (by push_cast; omega)]
  push_cast
  norm_num

/-- Consuming the wrapped character continues from column 1 of the next
row. -/
theorem posOf_wrap_succ (w y : Int) (hw : 0 < w) (n : Nat) :
    posOf w w y (n + 1) = posOf w 1 (y + 1) n := by
  unfold posOf
  rw [if_neg (by push_cast; omega)]
  push_cast
  by_cases hlt : 1 + (n : Int) < w
  · rw [if_pos (by omega)]
    have h1 : (0 : Int) ≤ (n : Int) + 1 := by positivity
    rw [show w + ((n : Int) + 1) - w = (n : Int) + 1 by ring]
    rw [Int.emod_eq_of_lt h1 (by omega), Int.ediv_eq_zero_of_lt h1 (by omega)]
    simp only [Prod.mk.injEq]
    constructor <;> omega
  · rw [if_neg (by omega)]
    rw [show w + ((n : Int) + 1) - w = (n : Int) + 1 by ring]
    have hm : ((n : Int) + 1) % w = (1 + (n : Int) - w) % w := by
      rw [show 1 + (n : Int) - w = ((n : Int) + 1) + w * (-1) by ring,
          Int.add_mul_emod_self_left]
    have hd : ((n : Int) + 1) / w = (1 + (n : Int) - w) / w + 1 := by
      rw [show 1 + (n : Int) - w = ((n : Int) + 1) + (-1) * w by ring,
          Int.add_mul_ediv_right _ _ (by omega : w ≠ 0)]
      ring
    rw [hm, hd]
    simp only [Prod.mk.injEq]
    exact ⟨trivial, by ring⟩

/-- Rows of later characters never precede the starting row. -/
theorem posOf_row_ge (w x y : Int) (hw : 0 < w) (n : Nat) :
    y ≤ (posOf w x y n).2 := by
  simp only [posOf]
  split_ifs with h
  · simp
  · have ht : (0 : Int) ≤ x + n - w := by omega
    have := Int.ediv_nonneg ht (le_of_lt hw)
    simp
    omega

/-- After a wrap every character lands strictly below the starting row. -/
theorem posOf_row_ge_wrap (w y : Int) (hw : 0 < w) (n : Nat) :
    y + 1 ≤ (posOf w w y n).2 := by
  simp only [posOf]
  rw [if_neg (by omega)]
  rw [show w + (n : Int) - w = (n : Int) by ring]
  have := Int.ediv_nonneg (by positivity : (0 : Int) ≤ (n : Int)) (le_of_lt hw)
  simp
  omega

/-- No later character returns to the cell the previous character
occupied. -/
theorem posOf_ne_start (w s r : Int) (hw : 0 < w) (m : Nat) :
    posOf w (s + 1) r m ≠ (s, r) := by
  simp only [posOf]
  split_ifs with h
  · intro hc
    rw [Prod.mk.injEq] at hc
    omega
  · intro hc
    rw [Prod.mk.injEq] at hc
    have ht : (0 : Int) ≤ s + 1 + m - w := by omega
    have := Int.ediv_nonneg ht (le_of_lt hw)
    omega

@[simp] theorem Viewport.unsafePut_w (vp : Viewport) (t : TileRef) (x y : Int) :
    (vp.unsafePut t x y).w = vp.w := rfl

@[simp] theorem Viewport.unsafePut_h (vp : Viewport) (t : TileRef) (x y : Int) :
    (vp.unsafePut t x y).h = vp.h := rfl

/-- Characterisation of the `putString` loop: under a sensible start
(`0 ≤ x ≤ w`, `0 ≤ y`, `0 < w`) each character `n` whose computed row is
on-screen is written at `posOf n`, and every cell that is no character's
on-screen position keeps its previous tile. -/
theorem putStringLoop_chars (cs : List Char) (r g b br bg bb : Option Nat) :
    ∀ (vp : Viewport) (x y : Int), 0 < vp.w → 0 ≤ x → x ≤ vp.w → 0 ≤ y →
    (∀ (n : Nat) (hn : n < cs.length), (posOf vp.w x y n).2 < vp.h →
       (vp.putStringLoop cs x y r g b br bg bb).buffer
           (posOf vp.w x y n).2 (posOf vp.w x y n).1
         = TileRef.obj
             { ch := String.singleton (cs.get ⟨n, hn⟩), r := r, g := g, b := b,
               br := br, bg := bg, bb := bb })
    ∧ (∀ a b2 : Int, (∀ (n : Nat), n < cs.length → posOf vp.w x y n = (a, b2) → vp.h ≤ b2) →
         (vp.putStringLoop cs x y r g b br bg bb).buffer b2 a = vp.buffer b2 a) := by
  induction cs with
  | nil =>
      intro vp x y hw hx0 hxle hy0
      constructor
      · intro n hn
        exact absurd hn (by simp)
      · intro a b2 _
        rfl
  | cons c rest ih =>
      intro vp x y hw hx0 hxle hy0
      by_cases hwrap : x ≥ vp.w
      · -- wrap: x = vp.w
        have hxw : x = vp.w := le_antisymm hxle hwrap
        subst hxw
        simp only [Viewport.putStringLoop, ge_iff_le, le_refl, if_true, zero_add]
        by_cases hstop : vp.h ≤ y + 1
        · rw [if_pos hstop]
          constructor
          · intro n hn hrow
            have h1 := posOf_row_ge_wrap vp.w y hw n
            omega
          · intro a b2 _
            rfl
        · rw [if_neg hstop]
          have hcont : y + 1 < vp.h := by omega
          obtain ⟨ih1, ih2⟩ := ih
            (vp.unsafePut (TileRef.obj
              { ch := String.singleton c, r := r, g := g, b := b,
                br := br, bg := bg, bb := bb }) 0 (y + 1))
            1 (y + 1) (by simpa using hw) (by omega) (by simp; omega) (by omega)
          simp only [Viewport.unsafePut_w, Viewport.unsafePut_h] at ih1 ih2
          constructor
          · intro n hn hrow
            match n with
            | 0 =>
                simp only [posOf_wrap_zero]
                rw [ih2 0 (y + 1) (fun m hm heq =>
                  absurd heq (by simpa using posOf_ne_start vp.w 0 (y + 1) hw m))]
                simp [Viewport.unsafePut]
            | Nat.succ m =>
                rw [posOf_wrap_succ vp.w y hw m] at hrow ⊢
                rw [ih1 m (by simpa using hn) hrow]
                simp
          · intro a b2 hnone
            rw [ih2 a b2 (fun m hm heq =>
              hnone (m + 1) (by simpa) (by rw [posOf_wrap_succ vp.w y hw m]; exact heq))]
            have hne : ¬ (b2 = y + 1 ∧ a = 0) := by
              rintro ⟨rfl, rfl⟩
              have := hnone 0 (by simp) (by rw [posOf_wrap_zero])
              omega
            simp [Viewport.unsafePut, hne]
      · -- no wrap: x < vp.w
        push_neg at hwrap
        have hcond : ¬ vp.w ≤ x := by omega
        simp only [Viewport.putStringLoop, ge_iff_le, if_neg hcond]
        have hpos0 : posOf vp.w x y 0 = (x, y) := by
          simp [posOf, hwrap]
        by_cases hstop : vp.h ≤ y
        · rw [if_pos hstop]
          constructor
          · intro n hn hrow
            have h1 := posOf_row_ge vp.w x y hw n
            omega
          · intro a b2 _
            rfl
        · rw [if_neg hstop]
          have hcont : y < vp.h := by omega
          obtain ⟨ih1, ih2⟩ := ih
            (vp.unsafePut (TileRef.obj
              { ch := String.singleton c, r := r, g := g, b := b,
                br := br, bg := bg, bb := bb }) x y)
            (x + 1) y (by simpa using hw) (by omega) (by simp; omega) hy0
          simp only [Viewport.unsafePut_w, Viewport.unsafePut_h] at ih1 ih2
          constructor
          · intro n hn hrow
            match n with
            | 0 =>
                simp only [hpos0]
                rw [ih2 x y (fun m hm heq =>
                  absurd heq (posOf_ne_start vp.w x y hw m))]
                simp [Viewport.unsafePut]
            | Nat.succ m =>
                rw [posOf_succ vp.w x y m] at hrow ⊢
                rw [ih1 m (by simpa using hn) hrow]
                simp
          · intro a b2 hnone
            rw [ih2 a b2 (fun m hm heq =>
              hnone (m + 1) (by simpa) (by rw [posOf_succ vp.w x y m]; exact heq))]
            have hne : ¬ (b2 = y ∧ a = x) := by
              rintro ⟨rfl, rfl⟩
              have := hnone 0 (by simp) (by rw [hpos0])
              omega
            simp [Viewport.unsafePut, hne]

/-- Claim C9: `putString` writes one tile per character starting at `(x,y)`,
advancing one column per character and wrapping to column 0 of the next row
when the row is exhausted (so `putString("AB", w-1, 0)` places `A` at
`(w-1,0)` and `B` at `(0,1)`); characters whose row is past the bottom are
silently dropped and their cells left untouched; and a negative starting
coordinate mutates nothing. -/
theorem putString_spec (vp : Viewport) (cs : List Char) (x y : Int)
    (r g b br bg bb : Option Nat) :
    ((x < 0 ∨ y < 0) → vp.putString cs x y r g b br bg bb = vp)
    ∧ (0 < vp.w → 0 ≤ x → x ≤ vp.w → 0 ≤ y →
        (∀ (n : Nat) (hn : n < cs.length), (posOf vp.w x y n).2 < vp.h →
           (vp.putString cs x y r g b br bg bb).buffer
               (posOf vp.w x y n).2 (posOf vp.w x y n).1
             = TileRef.obj
                 { ch := String.singleton (cs.get ⟨n, hn⟩), r := r, g := g, b := b,
                   br := br, bg := bg, bb := bb })
        ∧ (∀ a b2 : Int, (∀ (n : Nat), n < cs.length → posOf vp.w x y n = (a, b2) → vp.h ≤ b2) →
             (vp.putString cs x y r g b br bg bb).buffer b2 a = vp.buffer b2 a)) := by
  constructor
  · intro hneg
    simp [Viewport.putString, hneg]
  · intro hw hx0 hxle hy0
    have hnn : ¬ (x < 0 ∨ y < 0) := by omega
    simp only [Viewport.putString, if_neg hnn]
    exact putStringLoop_chars cs r g b br bg bb vp x y hw hx0 hxle hy0

/-- A concrete 3×2 viewport. -/
def vpWide : Viewport := Viewport.init 3 2

/-- Witness for `putString_spec`: on the 3×2 viewport, `putString "AB"` at
`(2, 0)` places `A` at `(2,0)` and wraps `B` to `(0,1)`. -/
theorem putString_spec_witness :
    0 < vpWide.w ∧ (0 : Int) ≤ 2 ∧ (2 : Int) ≤ vpWide.w ∧ (0 : Int) ≤ 0
    ∧ (vpWide.putString (['A', 'B'] : List Char) 2 0 none none none none none none).buffer 0 2
        = TileRef.obj { ch := "A" }
    ∧ (vpWide.putString (['A', 'B'] : List Char) 2 0 none none none none none none).buffer 1 0
        = TileRef.obj { ch := "B" } := by
  have h := (putString_spec vpWide ['A', 'B'] 2 0 none none none none none none).2
    (by decide) (by decide) (by decide) (by decide)
  refine ⟨by decide, by decide, by decide, by decide, ?_, ?_⟩
  · exact h.1 0 (by decide) (by decide)
  · exact h.1 1 (by decide) (by decide)
